import Mathlib

/-!
Shallow embedding of `svmk/url-normalizer` (`src/lib.rs`).

Strings coming from the URL query are modelled as byte sequences
(`List Nat`), because Rust's `String::len` counts bytes and `String`'s
`Ord` compares bytes.  The external collaborator `url::Url` is modelled
as a record of the components the crate touches; its fallible
`set_scheme` mutator is modelled from the spec (§4.3): the
representation may refuse a new scheme, abstracted here as a list of
refused scheme names carried by the URL value.
-/

namespace UrlNormalizer

/-- A byte string: the bytes of a decoded query key or value. -/
abbrev ByteStr := List Nat

/-- `struct Pair { key: String, value: String }` from `src/lib.rs`. -/
structure Pair where
  key : ByteStr
  value : ByteStr
deriving DecidableEq

/-- Rust `Ord` on byte slices: element-wise, then by length. -/
def lexCmp : ByteStr → ByteStr → Ordering
  | [], [] => .eq
  | [], _ :: _ => .lt
  | _ :: _, [] => .gt
  | a :: as, b :: bs =>
    match compare a b with
    | .eq => lexCmp as bs
    | o => o

/-- `cmp_string` from `src/lib.rs`: length first, then lexicographic. -/
def cmp_string (a b : ByteStr) : Ordering :=
  match compare a.length b.length with
  | .lt => .lt
  | .gt => .gt
  | .eq => lexCmp a b

/-- `impl Ord for Pair`: the comparator consults only the key. -/
def Pair.cmp (p q : Pair) : Ordering :=
  cmp_string p.key q.key

/-- Modelled from the spec: the external collaborator's `ParsedURL`
(`url::Url`).  The spec (§3, §6) exposes a scheme, a query as an ordered
sequence of pairs, an optional fragment, and the rest of the URL
(authority, path) which mutations must leave unchanged; refusal of a
scheme by the representation (§4.3) is abstracted as the field
`rejected_schemes`. -/
structure Url where
  scheme : String
  authority : String
  path : String
  query : List Pair
  fragment : Option ByteStr
  rejected_schemes : List String
deriving DecidableEq

/-- Modelled from the spec: the collaborator's `set_scheme` mutator
(§4.3, §6), which errors exactly when the URL representation refuses
the new scheme and otherwise replaces the scheme, leaving every other
component unchanged. -/
def Url.set_scheme (u : Url) (s : String) : Except Unit Url :=
  if s ∈ u.rejected_schemes then .error () else .ok { u with scheme := s }

/-! ### Rust `BinaryHeap` internals

`normalize_query` collects the pairs with
`.collect::<BinaryHeap<Pair>>()`, which heapifies the underlying vector
(`From<Vec<T>>` calls `rebuild`, i.e. `sift_down` on positions
`len/2 - 1` down to `0`), and then iterates `.iter().rev()`: the raw
heap array, reversed.  The definitions below translate the standard
library's `sift_down_range` / `rebuild` on the underlying vector. -/

/-- Indexing into the heap's underlying vector. -/
def getP (l : List Pair) (i : Nat) : Pair :=
  l.getD i ⟨[], []⟩

/-- Swap two positions of the underlying vector. -/
def lswap (l : List Pair) (i j : Nat) : List Pair :=
  (l.set i (getP l j)).set j (getP l i)

/-- The loop of Rust's `BinaryHeap::sift_down_range`, in swap form:
the element starting at `pos` rides along at the hole position.  At
each step the larger child is chosen (the right child on ties, as in
`!(hole.get(child) > hole.get(right))`), and the loop stops when the
element is `>=` that child.  `fuel` only bounds the iteration count
(the position at least doubles each step, so `en` is always enough). -/
def sift_down_go (fuel : Nat) (l : List Pair) (pos en : Nat) : List Pair :=
  match fuel with
  | 0 => l
  | fuel + 1 =>
    let child := 2 * pos + 1
    if child < en then
      let child :=
        if child + 1 < en ∧ ¬ (getP l child).cmp (getP l (child + 1)) = .gt
        then child + 1 else child
      if ¬ (getP l pos).cmp (getP l child) = .lt then l
      else sift_down_go fuel (lswap l pos child) child en
    else l

/-- Rust's `sift_down(pos)` = `sift_down_range(pos, self.len())`. -/
def sift_down (l : List Pair) (pos : Nat) : List Pair :=
  sift_down_go l.length l pos l.length

/-- The loop of Rust's `rebuild`: sift down positions
`n-1, n-2, …, 0`. -/
def rebuild_go (n : Nat) (l : List Pair) : List Pair :=
  match n with
  | 0 => l
  | n + 1 => rebuild_go n (sift_down l n)

/-- Rust's `BinaryHeap::rebuild`, run by `From<Vec<T>>` with
`n = len / 2`: the underlying vector after heapification. -/
def rebuild (l : List Pair) : List Pair :=
  rebuild_go (l.length / 2) l

/-- `normalize_query` from `src/lib.rs`: collect the query pairs into a
`BinaryHeap` (heapify), clear the query, then append the pairs of
`heap.iter().rev()` — the heap's underlying vector, reversed. -/
def normalize_query (u : Url) : Url :=
  { u with query := (rebuild u.query).reverse }

/-- `normalize_hash` from `src/lib.rs`: `url.set_fragment(None)`. -/
def normalize_hash (u : Url) : Url :=
  { u with fragment := none }

/-- The scheme table of `normalize_scheme`'s `match` in `src/lib.rs`. -/
def scheme_map (s : String) : Option String :=
  if s = "https" then some "http"
  else if s = "shttp" then some "http"
  else if s = "sftp" then some "ftp"
  else if s = "wss" then some "ws"
  else none

/-- `normalize_scheme` from `src/lib.rs`: look the scheme up in the
fixed table; on a hit call the collaborator's `set_scheme` (propagating
its error with `?`), otherwise return the URL unchanged. -/
def normalize_scheme (u : Url) : Except Unit Url :=
  match scheme_map u.scheme with
  | some s => u.set_scheme s
  | none => .ok u

/-- `normalize` from `src/lib.rs`: query, then hash, then scheme. -/
def normalize (u : Url) : Except Unit Url :=
  normalize_scheme (normalize_hash (normalize_query u))

/-- The spec's ordering law on keys (§4.1, §8), as a Boolean predicate:
`a` must precede `b` iff `a` is shorter, or of equal length and
lexicographically smaller. -/
def spec_key_lt (a b : ByteStr) : Bool :=
  a.length < b.length ∨ (a.length = b.length ∧ lexCmp a b = .lt)

/-! ### Concrete URL values used below -/

/-- The URL of the crate's own test
`https://example.com?c=1&q[]=99&q[5]=44&b=2&a=3#hash`, with the query
pairs in source order and decoded to bytes. -/
def testUrl : Url :=
  { scheme := "https", authority := "example.com", path := "/"
    query := [⟨[99], [49]⟩, ⟨[113, 91, 93], [57, 57]⟩,
              ⟨[113, 91, 53, 93], [52, 52]⟩, ⟨[98], [50]⟩, ⟨[97], [51]⟩]
    fragment := some [104, 97, 115, 104], rejected_schemes := [] }

/-- A URL with query `?a=1&b=2&c=3&d=4` (keys `a`, `b`, `c`, `d` in
input order). -/
def abcdUrl : Url :=
  { scheme := "http", authority := "example.com", path := "/"
    query := [⟨[97], [49]⟩, ⟨[98], [50]⟩, ⟨[99], [51]⟩, ⟨[100], [52]⟩]
    fragment := none, rejected_schemes := [] }

/-- `wss://example.com/`. -/
def wssUrl : Url :=
  { scheme := "wss", authority := "example.com", path := "/"
    query := [], fragment := none, rejected_schemes := [] }

/-- `sftp://example.com/`. -/
def sftpUrl : Url :=
  { scheme := "sftp", authority := "example.com", path := "/"
    query := [], fragment := none, rejected_schemes := [] }

/-- `ftp://example.com/`. -/
def ftpUrl : Url :=
  { scheme := "ftp", authority := "example.com", path := "/"
    query := [], fragment := none, rejected_schemes := [] }

/-! ### The heapification step permutes the underlying vector -/

/-- Writing `b` at a position and consing the old entry is, up to
permutation, consing `b` onto the original list. -/
theorem set_cons_perm {α : Type} (d : α) :
    ∀ (l : List α) (i : Nat) (b : α), i < l.length →
      ((l.getD i d) :: l.set i b).Perm (b :: l) := by
  intro l
  induction l with
  | nil => intro i b h; simp at h
  | cons x xs ih =>
    intro i b h
    cases i with
    | zero => simpa using List.Perm.swap b x xs
    | succ i =>
      have hi : i < xs.length := by simpa using h
      have s1 : (xs.getD i d :: x :: xs.set i b).Perm
          (x :: xs.getD i d :: xs.set i b) := List.Perm.swap x (xs.getD i d) _
      have s2 : (x :: xs.getD i d :: xs.set i b).Perm (x :: b :: xs) :=
        (ih i b hi).cons x
      have s3 : (x :: b :: xs).Perm (b :: x :: xs) := List.Perm.swap b x xs
      simpa using (s1.trans s2).trans s3

/-- A swap of two in-bounds positions permutes the list. -/
theorem lswap_perm (l : List Pair) (i j : Nat)
    (hi : i < l.length) (hj : j < l.length) : (lswap l i j).Perm l := by
  have h1 : ((l.getD i ⟨[], []⟩) :: l.set i (getP l j)).Perm (getP l j :: l) :=
    set_cons_perm _ l i (getP l j) hi
  have hj' : j < (l.set i (getP l j)).length := by
    simpa using hj
  have h2 := set_cons_perm (⟨[], []⟩ : Pair) (l.set i (getP l j)) j (getP l i) hj'
  have hget : (l.set i (getP l j)).getD j ⟨[], []⟩ = getP l j := by
    by_cases hij : i = j
    · subst hij
      rw [List.getD_eq_getElem _ _ hj']
      simp [List.getElem_set_self]
    · rw [List.getD_eq_getElem _ _ hj']
      rw [List.getElem_set_ne hij]
      simp [getP, List.getD, List.getElem?_eq_getElem hj]
  rw [hget] at h2
  have h3 : (getP l j :: lswap l i j).Perm (getP l j :: l) := by
    unfold lswap
    exact h2.trans (by simpa [getP] using h1)
  exact h3.cons_inv

/-- `lswap` preserves length. -/
theorem lswap_length (l : List Pair) (i j : Nat) :
    (lswap l i j).length = l.length := by
  simp [lswap]

/-- Each `sift_down` pass permutes the underlying vector. -/
theorem sift_down_go_perm :
    ∀ (fuel : Nat) (l : List Pair) (pos en : Nat), en ≤ l.length →
      (sift_down_go fuel l pos en).Perm l := by
  intro fuel
  induction fuel with
  | zero => intro l pos en _; simp [sift_down_go]
  | succ n ih =>
    intro l pos en hen
    rw [sift_down_go]
    by_cases h : 2 * pos + 1 < en
    · simp only [if_pos h]
      set child := if 2 * pos + 1 + 1 < en ∧
          ¬ (getP l (2 * pos + 1)).cmp (getP l (2 * pos + 1 + 1)) = .gt
        then 2 * pos + 1 + 1 else 2 * pos + 1 with hchild
      have hc : child < en := by
        rw [hchild]; split
        · omega
        · exact h
      have hp : pos < en := by omega
      by_cases h2 : ¬ (getP l pos).cmp (getP l child) = .lt
      · simp [h2]
      · simp only [if_neg h2]
        have hlen : en ≤ (lswap l pos child).length := by
          rw [lswap_length]; exact hen
        exact (ih (lswap l pos child) child en hlen).trans
          (lswap_perm l pos child (by omega) (by omega))
    · simp [h]

/-- The `rebuild` loop permutes the underlying vector. -/
theorem rebuild_go_perm : ∀ (n : Nat) (l : List Pair), (rebuild_go n l).Perm l := by
  intro n
  induction n with
  | zero => intro l; simp [rebuild_go]
  | succ n ih =>
    intro l
    rw [rebuild_go]
    exact (ih (sift_down l n)).trans
      (sift_down_go_perm l.length l n l.length (Nat.le_refl _))

/-- The query emitted by `normalize_query` is a permutation of the
input query. -/
theorem normalize_query_perm (u : Url) :
    (normalize_query u).query.Perm u.query := by
  have : ((rebuild u.query).reverse).Perm (rebuild u.query) :=
    List.reverse_perm _
  exact this.trans (rebuild_go_perm _ _)


/-! ### Sanity anchor: the crate's own `test_normalize_query` input -/

/-- On the query of the crate's own passing test
(`c=1, q[]=99, q[5]=44, b=2, a=3`) the model reproduces the asserted
output order `a, b, c, q[], q[5]` and keeps the fragment. -/
theorem normalize_query_matches_repo_test :
    (normalize_query testUrl).query.map Pair.key =
      [[97], [98], [99], [113, 91, 93], [113, 91, 53, 93]] ∧
    (normalize_query testUrl).fragment = testUrl.fragment := by
  constructor
  · rfl
  · rfl

/-! ### Claims -/

/-- C1: the claimed ordering law fails on the code.  For the input
query `?a=1&b=2&c=3&d=4` the code emits the heap's internal array
reversed, giving key order `a, c, b, d`: key `c` (`[99]`) appears
before key `b` (`[98]`), although the law demands `b` before `c`
(equal length, `b` lexicographically smaller). -/
theorem c1_ordering_law_violated :
    (normalize_query abcdUrl).query.map Pair.key =
      [[97], [99], [98], [100]] ∧
    spec_key_lt [99] [98] = false ∧ spec_key_lt [98] [99] = true := by
  refine ⟨?_, ?_, ?_⟩ <;> rfl

/-- C2: `normalize_query` preserves the multiset of (key, value) query
pairs — nothing is dropped, added, or deduplicated. -/
theorem c2_multiset_preserved (u : Url) :
    ((normalize_query u).query : Multiset Pair) = (u.query : Multiset Pair) :=
  Multiset.coe_eq_coe.mpr (normalize_query_perm u)

/-- C3: `normalize` is exactly the sequential composition of query
sorting, then fragment removal, then scheme downgrade. -/
theorem c3_normalize_composition (u : Url) :
    normalize u = normalize_scheme (normalize_hash (normalize_query u)) :=
  rfl

/-- C4: `normalize_hash` is idempotent (and total: it returns a `Url`,
not a `Result`). -/
theorem c4_normalize_hash_idempotent (u : Url) :
    normalize_hash (normalize_hash u) = normalize_hash u :=
  rfl

/-- C5: `normalize_scheme` maps the fixed table — `https` and `shttp`
to `http`, `sftp` to `ftp`, `wss` to `ws` — whenever the collaborator
accepts the new scheme. -/
theorem c5_scheme_table (u : Url)
    (h1 : "http" ∉ u.rejected_schemes) (h2 : "ftp" ∉ u.rejected_schemes)
    (h3 : "ws" ∉ u.rejected_schemes) :
    (u.scheme = "https" → normalize_scheme u = .ok { u with scheme := "http" }) ∧
    (u.scheme = "shttp" → normalize_scheme u = .ok { u with scheme := "http" }) ∧
    (u.scheme = "sftp" → normalize_scheme u = .ok { u with scheme := "ftp" }) ∧
    (u.scheme = "wss" → normalize_scheme u = .ok { u with scheme := "ws" }) := by
  refine ⟨?_, ?_, ?_, ?_⟩ <;> intro hs <;>
    simp [normalize_scheme, scheme_map, hs, Url.set_scheme, h1, h2, h3]

/-- C5 witness: `wss://example.com/` becomes `ws://example.com/` and
`sftp://example.com/` becomes `ftp://example.com/`. -/
theorem c5_scheme_table_witness :
    normalize_scheme wssUrl = .ok { wssUrl with scheme := "ws" } ∧
    normalize_scheme sftpUrl = .ok { sftpUrl with scheme := "ftp" } := by
  constructor
  · exact (c5_scheme_table wssUrl (by simp [wssUrl]) (by simp [wssUrl])
      (by simp [wssUrl])).2.2.2 rfl
  · exact (c5_scheme_table sftpUrl (by simp [sftpUrl]) (by simp [sftpUrl])
      (by simp [sftpUrl])).2.2.1 rfl

/-- C6: on a scheme outside the table, `normalize_scheme` returns `Ok`
with the URL unchanged — `set_scheme` is not even called, so no error
is possible. -/
theorem c6_scheme_totality (u : Url)
    (h1 : u.scheme ≠ "https") (h2 : u.scheme ≠ "shttp")
    (h3 : u.scheme ≠ "sftp") (h4 : u.scheme ≠ "wss") :
    normalize_scheme u = .ok u := by
  simp [normalize_scheme, scheme_map, h1, h2, h3, h4]

/-- C6 witness: `ftp://example.com/` is returned unchanged. -/
theorem c6_scheme_totality_witness : normalize_scheme ftpUrl = .ok ftpUrl :=
  c6_scheme_totality ftpUrl (by decide) (by decide) (by decide) (by decide)

/-- C7: `normalize` fails exactly when the scheme stage's `set_scheme`
call is refused: there is a mapped target scheme and the collaborator
rejects it.  The first two stages are total by their types, and on
failure `normalize` returns only the propagated error, no URL. -/
theorem c7_error_exactly_scheme_refusal (u : Url) :
    normalize u = .error () ↔
      ∃ t, scheme_map u.scheme = some t ∧ t ∈ u.rejected_schemes := by
  have hs : (normalize_hash (normalize_query u)).scheme = u.scheme := rfl
  have hr : (normalize_hash (normalize_query u)).rejected_schemes
      = u.rejected_schemes := rfl
  cases h : scheme_map u.scheme with
  | none => simp [normalize, normalize_scheme, hs, h]
  | some t =>
    by_cases hm : t ∈ u.rejected_schemes <;>
      simp [normalize, normalize_scheme, Url.set_scheme, hs, hr, h, hm]

/-- C8: `normalize_hash` removes the fragment and changes nothing
else: scheme, authority, path and query are untouched. -/
theorem c8_normalize_hash_frame (u : Url) :
    (normalize_hash u).fragment = none ∧
    (normalize_hash u).scheme = u.scheme ∧
    (normalize_hash u).authority = u.authority ∧
    (normalize_hash u).path = u.path ∧
    (normalize_hash u).query = u.query :=
  ⟨rfl, rfl, rfl, rfl, rfl⟩

/-- C9: a URL with no query pairs keeps an empty query through
`normalize_query`. -/
theorem c9_empty_query_preserved (u : Url) (h : u.query = []) :
    (normalize_query u).query = [] := by
  simp [normalize_query, h, rebuild, rebuild_go]

/-- C9 witness: `ftp://example.com/` has no query pairs before or
after `normalize_query`. -/
theorem c9_empty_query_preserved_witness :
    (normalize_query ftpUrl).query = [] :=
  c9_empty_query_preserved ftpUrl rfl

/-- C10: the `Pair` comparator consults only the key, so two pairs
with equal keys but different values compare `Equal` yet are not equal
under the derived equality. -/
theorem c10_pair_cmp_key_only :
    (∀ p q : Pair, p.cmp q = cmp_string p.key q.key) ∧
    Pair.cmp ⟨[97], [48]⟩ ⟨[97], [49]⟩ = .eq ∧
    (⟨[97], [48]⟩ : Pair) ≠ ⟨[97], [49]⟩ :=
  ⟨fun _ _ => rfl, rfl, by decide⟩

end UrlNormalizer
